import Mathlib

/-!
Verification development for the streaming audio post-processing core of the
repository (file `api/src/services/audio.py`): the `AudioNormalizer`
(amplitude normalization and silence location) and the `AudioService`
(chunk trimming and streaming conversion orchestration with its writer map).

Python floats are modelled as rationals, numpy int16 buffers as lists of
integers, and exceptions as `Except` values.  The external
`StreamingAudioWriter` collaborator is not part of the sources; it is
modelled from the specification as an abstract writer whose `write_chunk`
behavior is supplied as a parameter.
-/

namespace KokoroAudio

/-- Configuration values read by the service (`settings` in the source):
`gap_trim_ms`, `dynamic_gap_trim_padding_ms` and the per-punctuation pad
multiplier table `dynamic_gap_trim_padding_char_multiplier`. -/
structure Settings where
  gap_trim_ms : ℚ
  dynamic_gap_trim_padding_ms : ℚ
  dynamic_gap_trim_padding_char_multiplier : List (Char × ℚ)
deriving DecidableEq

/-- Truncation toward zero, the semantics of Python `int()` applied to a
number: floor for nonnegative values, ceiling for negative ones. -/
def truncToInt (q : ℚ) : ℤ :=
  if 0 ≤ q then ⌊q⌋ else ⌈q⌉

/-- Per-stream normalization state (`AudioNormalizer.__init__`):
`chunk_trim_ms = settings.gap_trim_ms`, `sample_rate = 24000`,
`samples_to_trim = int(chunk_trim_ms * sample_rate / 1000)` and
`samples_to_pad_start = int(50 * sample_rate / 1000)`. -/
structure AudioNormalizer where
  chunk_trim_ms : ℚ
  sample_rate : ℕ
  samples_to_trim : ℤ
  samples_to_pad_start : ℤ
deriving DecidableEq

/-- Constructor `AudioNormalizer()`, reading the global settings. -/
def AudioNormalizer.init (settings : Settings) : AudioNormalizer :=
  { chunk_trim_ms := settings.gap_trim_ms
    sample_rate := 24000
    samples_to_trim := truncToInt (settings.gap_trim_ms * 24000 / 1000)
    samples_to_pad_start := truncToInt ((50 : ℚ) * 24000 / 1000) }

/-- Python `str.strip()` on the character list: drop whitespace from both
ends. -/
def pyStrip (chunk_text : String) : List Char :=
  ((chunk_text.toList.dropWhile Char.isWhitespace).reverse.dropWhile
    Char.isWhitespace).reverse

/-- Pad multiplier lookup (`find_first_last_non_silent` lines 43-48): strip
the chunk text, take its last character, and look it up in the configured
multiplier table; default multiplier 1. -/
def padMultiplier (settings : Settings) (chunk_text : String) : ℚ :=
  match (pyStrip chunk_text).getLast? with
  | none => 1
  | some c =>
    match settings.dynamic_gap_trim_padding_char_multiplier.find? (fun p => p.1 == c) with
    | none => 1
    | some p => p.2

/-- Trailing pad sample count (`find_first_last_non_silent` lines 50-53):
for a non-last chunk
`max(int(dynamic_gap_trim_padding_ms * sample_rate * pad_multiplier / 1000) - samples_to_pad_start, 0)`,
for the last chunk the fixed `samples_to_pad_start`. -/
def samplesToPadEnd (settings : Settings) (n : AudioNormalizer) (chunk_text : String)
    (is_last_chunk : Bool) : ℤ :=
  if !is_last_chunk then
    max (truncToInt (settings.dynamic_gap_trim_padding_ms * (n.sample_rate : ℚ) *
      padMultiplier settings chunk_text / 1000) - n.samples_to_pad_start) 0
  else
    n.samples_to_pad_start

/-- The amplitude comparison of the silence scan (lines 55, 60, 65): the
source compares the signed sample against
`amplitude_threshold = np.iinfo(int16).max * 10 ** (silence_threshold_db / 20)`
at the default `silence_threshold_db = -45`, i.e. against
`32767 * 10 ^ (-9/4)`.  For an integer sample `s`, both sides being positive,
`s > 32767 * 10 ^ (-9/4)` holds iff `0 < s` and
`32767 ^ 4 < s ^ 4 * 10 ^ 9`, which is the decidable form used here (the
equivalence with the real-number inequality is proved below in
`exceedsB_iff_real`). -/
def exceedsB (s : ℤ) : Bool :=
  decide (0 < s ∧ 32767 ^ 4 < s ^ 4 * 10 ^ 9)

/-- Forward scan of the silence locator (lines 59-62): index of the first
sample strictly above the amplitude threshold, if any. -/
def firstLoud : List ℤ → Option ℕ
  | [] => none
  | x :: xs => if exceedsB x then some 0 else (firstLoud xs).map (· + 1)

/-- Backward scan of the silence locator (lines 64-67): index of the last
sample strictly above the amplitude threshold, if any. -/
def lastLoud : List ℤ → Option ℕ
  | [] => none
  | x :: xs =>
    match lastLoud xs with
    | some j => some (j + 1)
    | none => if exceedsB x then some 0 else none

/-- Silence locator `AudioNormalizer.find_first_last_non_silent` (at the
default threshold of -45 dB): if no sample exceeds the threshold return
`(0, len)`, otherwise
`(max(first - samples_to_pad_start, 0), min(last + ceil(samples_to_pad_end / speed), len))`. -/
def find_first_last_non_silent (settings : Settings) (n : AudioNormalizer)
    (audio_data : List ℤ) (chunk_text : String) (speed : ℚ)
    (is_last_chunk : Bool) : ℤ × ℤ :=
  let samples_to_pad_end := samplesToPadEnd settings n chunk_text is_last_chunk
  match firstLoud audio_data, lastLoud audio_data with
  | some i, some j =>
    (max ((i : ℤ) - n.samples_to_pad_start) 0,
     min ((j : ℤ) + ⌈(samples_to_pad_end : ℚ) / speed⌉) (audio_data.length : ℤ))
  | _, _ => (0, (audio_data.length : ℤ))

/-- Scaling, clipping and int16 conversion applied to one sample by
`AudioNormalizer.normalize`: `np.clip(s * 32767, -32768, 32767).astype(np.int16)`. -/
def normSample (s : ℚ) : ℤ :=
  truncToInt (min (max (s * 32767) (-32768)) 32767)

/-- Amplitude normalizer `AudioNormalizer.normalize`: raises on an empty
buffer, otherwise scales to the int16 range with clipping. -/
def AudioNormalizer.normalize (_self : AudioNormalizer) (audio_data : List ℚ) :
    Except String (List ℤ) :=
  if audio_data.length = 0 then Except.error ("Empty audio data")
  else Except.ok (audio_data.map normSample)

/-- Word-level timestamp attached to a chunk: `{word, start_time, end_time}`
in seconds. -/
structure WordTimestamp where
  word : String
  start_time : ℚ
  end_time : ℚ
deriving DecidableEq

/-- Audio chunk: a sample buffer plus optional word timestamps.  The sample
type is a parameter because the buffer is float-valued on entry to
`convert_audio` and int16-valued after normalization. -/
structure AudioChunk (α : Type) where
  audio : List α
  word_timestamps : Option (List WordTimestamp)
deriving DecidableEq

/-- Python list slicing `a[start:stop]` for integer bounds: negative bounds
count from the end, and bounds are clamped to the list. -/
def pySlice (a : List ℤ) (start stop : ℤ) : List ℤ :=
  let len : ℤ := a.length
  let s := if start < 0 then max (len + start) 0 else min start len
  let e := if stop < 0 then max (len + stop) 0 else min stop len
  (a.take e.toNat).drop s.toNat

/-- Chunk trimmer `AudioService.trim_audio`: strip `samples_to_trim` samples
from both ends when the buffer is long enough (the slice `a[t:-t]`), locate
the non-silent range, slice to it, and shift every word timestamp by
`start_index / 24000`. -/
def trim_audio (settings : Settings) (audio_chunk : AudioChunk ℤ)
    (chunk_text : String) (speed : ℚ) (is_last_chunk : Bool)
    (normalizer : Option AudioNormalizer) : AudioChunk ℤ :=
  let n := normalizer.getD (AudioNormalizer.init settings)
  let audio1 :=
    if (audio_chunk.audio.length : ℤ) > 2 * n.samples_to_trim then
      pySlice audio_chunk.audio n.samples_to_trim (-n.samples_to_trim)
    else audio_chunk.audio
  let se := find_first_last_non_silent settings n audio1 chunk_text speed is_last_chunk
  let audio2 := pySlice audio1 se.1 se.2
  { audio := audio2
    word_timestamps := audio_chunk.word_timestamps.map (List.map (fun ts =>
      { ts with
        start_time := ts.start_time - (se.1 : ℚ) / 24000
        end_time := ts.end_time - (se.1 : ℚ) / 24000 })) }

/-- The `start_index` computed inside `trim_audio` (line 201): the first
component of the silence-locator result on the head/tail-trimmed buffer. -/
def trimStartIndex (settings : Settings) (n : AudioNormalizer) (audio : List ℤ)
    (chunk_text : String) (speed : ℚ) (is_last_chunk : Bool) : ℤ :=
  (find_first_last_non_silent settings n
    (if (audio.length : ℤ) > 2 * n.samples_to_trim then
      pySlice audio n.samples_to_trim (-n.samples_to_trim)
    else audio) chunk_text speed is_last_chunk).1

/-- Supported output formats of `AudioService`. -/
def SUPPORTED_FORMATS : List String :=
  ["wav", "mp3", "opus", "flac", "aac", "pcm", "ogg"]

/-- Modelled from the spec: the encoder-writer collaborator
`StreamingAudioWriter(format, sample_rate)` is not among the sources; per
the specification it is a per-session black box constructed from the output
format and sample rate. -/
structure StreamingAudioWriter where
  format : String
  sample_rate : ℕ
deriving DecidableEq

/-- Modelled from the spec: the behavior of the writer collaborator,
`write(samples) -> bytes` and `finalize() -> bytes`, either of which may
raise; supplied as a parameter so theorems quantify over collaborator
behaviors. -/
structure WriterBehavior where
  write : StreamingAudioWriter → List ℤ → Except String (List ℕ)
  finalize : StreamingAudioWriter → Except String (List ℕ)

/-- The live-session writer map `AudioService._writers`, a dictionary from
writer key to writer instance. -/
def WriterMap : Type := List (String × StreamingAudioWriter)

/-- Dictionary removal: drop every binding of the key. -/
def dictErase (m : WriterMap) (k : String) : WriterMap :=
  m.filter (fun p => !(p.1 == k))

/-- Dictionary update `m[k] = v` (replaces any previous binding). -/
def dictInsert (m : WriterMap) (k : String) (v : StreamingAudioWriter) : WriterMap :=
  (k, v) :: dictErase m k

/-- Dictionary lookup. -/
def dictLookup (m : WriterMap) (k : String) : Option StreamingAudioWriter :=
  (m.find? (fun p => p.1 == k)).map (fun p => p.2)

/-- The writer key of a call: `f"{output_format}_{sample_rate}"`. -/
def writerKey (output_format : String) (sample_rate : ℕ) : String :=
  output_format ++ "_" ++ toString sample_rate

/-- Observable writer-lifecycle events of one `convert_audio` call:
construction of a writer for a key, a chunk write, and a finalize request. -/
inductive Event where
  | writerCreated (key : String)
  | writeCalled (key : String)
  | finalizeCalled (key : String)
deriving DecidableEq, BEq

/-- Result of a `convert_audio` call: the returned value or raised error,
the writer map after the call, and the writer-lifecycle events. -/
structure ConvertResult where
  result : Except String (List ℕ × AudioChunk ℤ)
  writers : WriterMap
  events : List Event

/-- Streaming conversion orchestrator `AudioService.convert_audio`: validate
the format, normalize, trim, get or create the writer for
`"{format}_{sample_rate}"`, write the chunk when non-empty, finalize and
delete the writer on the last chunk; any exception in the body is re-raised
as `ValueError("Failed to convert audio stream to {format}: {cause}")`.
A non-last chunk whose trimmed buffer is empty never binds `chunk_data`,
so the final `return chunk_data if chunk_data else b""` raises an unbound
local variable error. -/
def convert_audio (settings : Settings) (beh : WriterBehavior) (writers : WriterMap)
    (audio_chunk : AudioChunk ℚ) (sample_rate : ℕ) (output_format : String)
    (speed : ℚ) (chunk_text : String) (is_first_chunk : Bool)
    (is_last_chunk : Bool) (normalizer : Option AudioNormalizer) : ConvertResult :=
  let r : ConvertResult :=
    if !(SUPPORTED_FORMATS.contains output_format) then
      ⟨Except.error ("Format " ++ output_format ++ " not supported"), writers, []⟩
    else
      let n := normalizer.getD (AudioNormalizer.init settings)
      match n.normalize audio_chunk.audio with
      | Except.error e => ⟨Except.error e, writers, []⟩
      | Except.ok naudio =>
        let chunk1 : AudioChunk ℤ := ⟨naudio, audio_chunk.word_timestamps⟩
        let chunk2 := trim_audio settings chunk1 chunk_text speed is_last_chunk (some n)
        let writer_key := writerKey output_format sample_rate
        let createNew := is_first_chunk || (dictLookup writers writer_key).isNone
        let writers1 :=
          if createNew then dictInsert writers writer_key ⟨output_format, sample_rate⟩
          else writers
        let ev0 : List Event := if createNew then [Event.writerCreated writer_key] else []
        match dictLookup writers1 writer_key with
        | none => ⟨Except.error ("KeyError"), writers1, ev0⟩
        | some writer =>
          let step2 : Option (List ℕ) → List Event → ConvertResult := fun chunk_data ev =>
            if is_last_chunk then
              match beh.finalize writer with
              | Except.error e => ⟨Except.error e, writers1, ev ++ [Event.finalizeCalled writer_key]⟩
              | Except.ok final_data =>
                ⟨Except.ok (if final_data.isEmpty then [] else final_data, chunk2),
                 dictErase writers1 writer_key, ev ++ [Event.finalizeCalled writer_key]⟩
            else
              match chunk_data with
              | none =>
                ⟨Except.error ("local variable chunk_data referenced before assignment"),
                 writers1, ev⟩
              | some cd =>
                ⟨Except.ok (if cd.isEmpty then [] else cd, chunk2), writers1, ev⟩
          if chunk2.audio.length > 0 then
            match beh.write writer chunk2.audio with
            | Except.error e => ⟨Except.error e, writers1, ev0 ++ [Event.writeCalled writer_key]⟩
            | Except.ok cd => step2 (some cd) (ev0 ++ [Event.writeCalled writer_key])
          else step2 none ev0
  match r.result with
  | Except.error e =>
    ⟨Except.error ("Failed to convert audio stream to " ++ output_format ++ ": " ++ e),
     r.writers, r.events⟩
  | Except.ok _ => r

/-- The buffer a `convert_audio` call (with no normalizer supplied) hands to
the writer: the chunk audio after successful normalization and trimming. -/
def convertTrimmed (settings : Settings) (audio_chunk : AudioChunk ℚ)
    (chunk_text : String) (speed : ℚ) (is_last_chunk : Bool) : List ℤ :=
  (trim_audio settings ⟨audio_chunk.audio.map normSample, audio_chunk.word_timestamps⟩
    chunk_text speed is_last_chunk (some (AudioNormalizer.init settings))).audio

/-- Two-call session of the writer-key lifecycle scenario: a first, non-last
chunk followed by a non-first, last chunk, both under format `"wav"` at
sample rate 24000. -/
def convertTwice (settings : Settings) (beh : WriterBehavior) (writers : WriterMap)
    (c1 c2 : AudioChunk ℚ) (s1 s2 : ℚ) (t1 t2 : String) :
    ConvertResult × ConvertResult :=
  let r1 := convert_audio settings beh writers c1 24000 ("wav") s1 t1 true false none
  let r2 := convert_audio settings beh r1.writers c2 24000 ("wav") s2 t2 false true none
  (r1, r2)

/-! Helper lemmas about the embedded definitions. -/

theorem truncToInt_intCast (n : ℤ) : truncToInt (n : ℚ) = n := by
  unfold truncToInt
  split
  · exact Int.floor_intCast n
  · exact Int.ceil_intCast n

theorem truncToInt_bounds (q : ℚ) (hlo : (-32768 : ℚ) ≤ q) (hhi : q ≤ 32767) :
    -32768 ≤ truncToInt q ∧ truncToInt q ≤ 32767 := by
  unfold truncToInt
  split
  case isTrue h0 =>
    constructor
    · exact Int.le_floor.mpr (by exact_mod_cast hlo)
    · have h := le_trans (Int.floor_le q) hhi
      exact_mod_cast h
  case isFalse h0 =>
    constructor
    · have h := le_trans hlo (Int.le_ceil q)
      exact_mod_cast h
    · exact Int.ceil_le.mpr (by exact_mod_cast hhi)

theorem truncToInt_eq_of (q : ℚ) (n : ℤ) (h : q = (n : ℚ)) : truncToInt q = n := by
  rw [h, truncToInt_intCast]

theorem init_samples_to_pad_start (settings : Settings) :
    (AudioNormalizer.init settings).samples_to_pad_start = 1200 := by
  show truncToInt ((50 : ℚ) * 24000 / 1000) = 1200
  exact truncToInt_eq_of _ _ (by norm_num)

theorem init_sample_rate (settings : Settings) :
    (AudioNormalizer.init settings).sample_rate = 24000 := rfl

theorem samplesToPadEnd_nonneg (settings : Settings) (chunk_text : String)
    (is_last_chunk : Bool) :
    0 ≤ samplesToPadEnd settings (AudioNormalizer.init settings) chunk_text is_last_chunk := by
  unfold samplesToPadEnd
  split
  · exact le_max_right _ _
  · rw [init_samples_to_pad_start]; norm_num

theorem exceedsB_iff_real (s : ℤ) :
    exceedsB s = true ↔ (32767 : ℝ) * (10 : ℝ) ^ ((-45 : ℝ) / 20) < (s : ℝ) := by
  have h10 : (0:ℝ) ≤ 10 := by norm_num
  have ht4 : ((10 : ℝ) ^ ((-45 : ℝ) / 20)) ^ (4:ℕ) = ((10:ℝ) ^ (9:ℕ))⁻¹ := by
    rw [← Real.rpow_natCast ((10:ℝ) ^ ((-45 : ℝ) / 20)) 4, ← Real.rpow_mul h10]
    rw [show ((-45 : ℝ) / 20 * ((4:ℕ):ℝ)) = -(9:ℝ) from by norm_num, Real.rpow_neg h10]
    rw [show ((9:ℝ)) = ((9:ℕ):ℝ) from by norm_num, Real.rpow_natCast]
  have hb : (0:ℝ) < 32767 * (10 : ℝ) ^ ((-45 : ℝ) / 20) := by positivity
  simp only [exceedsB, decide_eq_true_eq]
  constructor
  · rintro ⟨hs, h4⟩
    have h4R : (32767:ℝ) ^ 4 < (s:ℝ) ^ 4 * 10 ^ 9 := by exact_mod_cast h4
    have hsR : (0:ℝ) < (s:ℝ) := by exact_mod_cast hs
    have hlt : (32767 * (10 : ℝ) ^ ((-45 : ℝ) / 20)) ^ (4:ℕ) < (s:ℝ) ^ (4:ℕ) := by
      rw [mul_pow, ht4, inv_eq_one_div, mul_one_div, div_lt_iff₀ (by positivity)]
      exact h4R
    exact (pow_lt_pow_iff_left₀ (le_of_lt hb) (le_of_lt hsR) (by norm_num)).mp hlt
  · intro h
    have hsR : (0:ℝ) < (s:ℝ) := lt_trans hb h
    have hs : 0 < s := by exact_mod_cast hsR
    refine ⟨hs, ?_⟩
    have hlt : (32767 * (10 : ℝ) ^ ((-45 : ℝ) / 20)) ^ (4:ℕ) < (s:ℝ) ^ (4:ℕ) :=
      pow_lt_pow_left₀ h (le_of_lt hb) (by norm_num)
    rw [mul_pow, ht4, inv_eq_one_div, mul_one_div, div_lt_iff₀ (by positivity)] at hlt
    exact_mod_cast hlt

theorem firstLoud_eq_none (l : List ℤ) :
    firstLoud l = none ↔ ∀ s ∈ l, exceedsB s = false := by
  induction l with
  | nil => simp [firstLoud]
  | cons x xs ih =>
    cases hx : exceedsB x with
    | true =>
      apply iff_of_false
      · simp [firstLoud, hx]
      · intro hall
        have h0 := hall x (List.mem_cons_self x xs)
        rw [hx] at h0; cases h0
    | false =>
      simp [firstLoud, hx, Option.map_eq_none', ih, List.forall_mem_cons]

theorem lastLoud_eq_none (l : List ℤ) :
    lastLoud l = none ↔ ∀ s ∈ l, exceedsB s = false := by
  induction l with
  | nil => simp [lastLoud]
  | cons x xs ih =>
    cases hxs : lastLoud xs with
    | some j =>
      apply iff_of_false
      · simp [lastLoud, hxs]
      · intro hall
        have hnone : lastLoud xs = none :=
          ih.mpr (fun s hs => hall s (List.mem_cons_of_mem x hs))
        rw [hxs] at hnone; cases hnone
    | none =>
      cases hx : exceedsB x with
      | true =>
        apply iff_of_false
        · simp [lastLoud, hxs, hx]
        · intro hall
          have h0 := hall x (List.mem_cons_self x xs)
          rw [hx] at h0; cases h0
      | false =>
        apply iff_of_true
        · simp [lastLoud, hxs, hx]
        · exact List.forall_mem_cons.mpr ⟨hx, ih.mp hxs⟩

theorem firstLoud_spec (l : List ℤ) (i : ℕ) (h : firstLoud l = some i) :
    i < l.length ∧ exceedsB (l.getD i 0) = true ∧
      ∀ k, k < i → exceedsB (l.getD k 0) = false := by
  induction l generalizing i with
  | nil => simp [firstLoud] at h
  | cons x xs ih =>
    cases hx : exceedsB x with
    | true =>
      simp [firstLoud, hx] at h
      subst h
      exact ⟨Nat.succ_pos _, by simpa [List.getD_cons_zero] using hx,
        fun k hk => absurd hk (Nat.not_lt_zero k)⟩
    | false =>
      simp [firstLoud, hx, Option.map_eq_some'] at h
      obtain ⟨a, ha, rfl⟩ := h
      obtain ⟨h1, h2, h3⟩ := ih a ha
      refine ⟨Nat.succ_lt_succ h1, by simpa [List.getD_cons_succ] using h2, ?_⟩
      intro k hk
      cases k with
      | zero => simpa [List.getD_cons_zero] using hx
      | succ k =>
        simpa [List.getD_cons_succ] using h3 k (Nat.lt_of_succ_lt_succ hk)

theorem lastLoud_spec (l : List ℤ) (j : ℕ) (h : lastLoud l = some j) :
    j < l.length ∧ exceedsB (l.getD j 0) = true := by
  induction l generalizing j with
  | nil => simp [lastLoud] at h
  | cons x xs ih =>
    cases hxs : lastLoud xs with
    | some a =>
      simp only [lastLoud, hxs, Option.some.injEq] at h
      subst h
      obtain ⟨h1, h2⟩ := ih a hxs
      exact ⟨Nat.succ_lt_succ h1, by simpa [List.getD_cons_succ] using h2⟩
    | none =>
      cases hx : exceedsB x with
      | true =>
        simp [lastLoud, hxs, hx] at h
        subst h
        exact ⟨Nat.succ_pos _, by simpa [List.getD_cons_zero] using hx⟩
      | false =>
        simp [lastLoud, hxs, hx] at h

theorem firstLoud_of_minimal (l : List ℤ) (i : ℕ) (h1 : i < l.length)
    (h2 : exceedsB (l.getD i 0) = true)
    (h3 : ∀ k, k < i → exceedsB (l.getD k 0) = false) :
    firstLoud l = some i := by
  induction l generalizing i with
  | nil => simp at h1
  | cons x xs ih =>
    cases hx : exceedsB x with
    | true =>
      have hi : i = 0 := by
        by_contra hne
        have h0 := h3 0 (Nat.pos_of_ne_zero hne)
        rw [List.getD_cons_zero] at h0
        rw [h0] at hx; cases hx
      subst hi
      simp [firstLoud, hx]
    | false =>
      have hi : i ≠ 0 := by
        intro h0
        subst h0
        rw [List.getD_cons_zero] at h2
        rw [h2] at hx; cases hx
      obtain ⟨a, rfl⟩ := Nat.exists_eq_succ_of_ne_zero hi
      have hrec := ih a (Nat.lt_of_succ_lt_succ h1)
        (by simpa [List.getD_cons_succ] using h2)
        (fun k hk => by simpa [List.getD_cons_succ] using h3 (k + 1) (Nat.succ_lt_succ hk))
      simp [firstLoud, hx, hrec]

theorem lastLoud_of_maximal (l : List ℤ) (j : ℕ) (h1 : j < l.length)
    (h2 : exceedsB (l.getD j 0) = true)
    (h3 : ∀ k, j < k → k < l.length → exceedsB (l.getD k 0) = false) :
    lastLoud l = some j := by
  induction l generalizing j with
  | nil => simp at h1
  | cons x xs ih =>
    cases j with
    | zero =>
      have hxs : lastLoud xs = none := by
        rw [lastLoud_eq_none]
        intro s hs
        obtain ⟨m, hm, rfl⟩ := List.mem_iff_getElem.mp hs
        have := h3 (m + 1) (Nat.succ_pos m) (Nat.succ_lt_succ hm)
        rw [List.getD_cons_succ] at this
        rwa [List.getD_eq_getElem _ _ hm] at this
      rw [List.getD_cons_zero] at h2
      simp [lastLoud, hxs, h2]
    | succ a =>
      have hrec := ih a (Nat.lt_of_succ_lt_succ h1)
        (by simpa [List.getD_cons_succ] using h2)
        (fun k hk hk2 => by
          simpa [List.getD_cons_succ] using h3 (k + 1) (Nat.succ_lt_succ hk) (Nat.succ_lt_succ hk2))
      simp [lastLoud, hrec]

theorem normalize_ok (n : AudioNormalizer) (audio : List ℚ) (h : audio ≠ []) :
    n.normalize audio = Except.ok (audio.map normSample) := by
  have hlen : audio.length ≠ 0 := fun h0 => h (List.length_eq_zero.mp h0)
  simp [AudioNormalizer.normalize, hlen]

theorem dictLookup_insert (m : WriterMap) (k : String) (v : StreamingAudioWriter) :
    dictLookup (dictInsert m k v) k = some v := by
  simp [dictLookup, dictInsert, List.find?]

theorem dictLookup_erase (m : WriterMap) (k : String) :
    dictLookup (dictErase m k) k = none := by
  induction m with
  | nil => rfl
  | cons p m ih =>
    by_cases hp : p.1 == k
    · simp only [dictErase, List.filter, hp, Bool.not_true]
      exact ih
    · simp only [dictErase, List.filter, hp, Bool.not_false]
      simp only [dictLookup, List.find?, hp]
      exact ih

/-- Characterization of one `convert_audio` call with a supported format, a
non-empty input buffer and a writer whose write and finalize succeed: the
call emits the writer-created event exactly when `is_first_chunk` is true or
the key is absent, possibly one write event, and a finalize event exactly
when `is_last_chunk` is true; the writer map gains the key (insert) and, on
a last chunk, loses it again (erase). -/
theorem convert_step (settings : Settings) (beh : WriterBehavior) (writers : WriterMap)
    (chunk : AudioChunk ℚ) (sr : ℕ) (fmt : String) (speed : ℚ) (text : String)
    (first last : Bool)
    (hfmt : SUPPORTED_FORMATS.contains fmt = true)
    (hne : chunk.audio ≠ [])
    (hw : ∀ w a, ∃ b, beh.write w a = Except.ok b)
    (hfin : ∀ w, ∃ b, beh.finalize w = Except.ok b) :
    ∃ evW : List Event,
      (evW = [] ∨ evW = [Event.writeCalled (writerKey fmt sr)]) ∧
      (convert_audio settings beh writers chunk sr fmt speed text first last none).events
        = (if (first || (dictLookup writers (writerKey fmt sr)).isNone) = true
            then [Event.writerCreated (writerKey fmt sr)] else [])
          ++ evW ++ (if last = true then [Event.finalizeCalled (writerKey fmt sr)] else [])
      ∧ (convert_audio settings beh writers chunk sr fmt speed text first last none).writers
        = (if last = true
            then dictErase (if (first || (dictLookup writers (writerKey fmt sr)).isNone) = true
                then dictInsert writers (writerKey fmt sr) ⟨fmt, sr⟩ else writers)
              (writerKey fmt sr)
            else (if (first || (dictLookup writers (writerKey fmt sr)).isNone) = true
                then dictInsert writers (writerKey fmt sr) ⟨fmt, sr⟩ else writers)) := by
  simp only [convert_audio, hfmt, Bool.not_true, Bool.false_eq_true, if_false,
    Option.getD_none]
  rw [normalize_ok (AudioNormalizer.init settings) chunk.audio hne]
  simp only
  cases hc : (first || (dictLookup writers (writerKey fmt sr)).isNone) with
  | true =>
    simp only [hc, if_true, dictLookup_insert]
    by_cases hlen : (trim_audio settings
        ⟨List.map normSample chunk.audio, chunk.word_timestamps⟩
        text speed last (some (AudioNormalizer.init settings))).audio.length > 0
    · rw [if_pos hlen]
      obtain ⟨b, hb⟩ := hw ⟨fmt, sr⟩ (trim_audio settings
        ⟨List.map normSample chunk.audio, chunk.word_timestamps⟩
        text speed last (some (AudioNormalizer.init settings))).audio
      rw [hb]
      cases last with
      | true =>
        obtain ⟨fb, hfb⟩ := hfin ⟨fmt, sr⟩
        simp only [hfb, if_true]
        exact ⟨[Event.writeCalled (writerKey fmt sr)], Or.inr rfl, by simp, by simp⟩
      | false =>
        simp only [Bool.false_eq_true, if_false]
        exact ⟨[Event.writeCalled (writerKey fmt sr)], Or.inr rfl, by simp, by simp⟩
    · rw [if_neg hlen]
      cases last with
      | true =>
        obtain ⟨fb, hfb⟩ := hfin ⟨fmt, sr⟩
        simp only [hfb, if_true]
        exact ⟨[], Or.inl rfl, by simp, by simp⟩
      | false =>
        simp only [Bool.false_eq_true, if_false]
        exact ⟨[], Or.inl rfl, by simp, by simp⟩
  | false =>
    have hcc := hc
    rw [Bool.or_eq_false_iff] at hcc
    cases hwk : dictLookup writers (writerKey fmt sr) with
    | none => rw [hwk] at hcc; simp at hcc
    | some w =>
      simp only [hc, Bool.false_eq_true, if_false, hwk]
      by_cases hlen : (trim_audio settings
          ⟨List.map normSample chunk.audio, chunk.word_timestamps⟩
          text speed last (some (AudioNormalizer.init settings))).audio.length > 0
      · rw [if_pos hlen]
        obtain ⟨b, hb⟩ := hw w (trim_audio settings
          ⟨List.map normSample chunk.audio, chunk.word_timestamps⟩
          text speed last (some (AudioNormalizer.init settings))).audio
        rw [hb]
        cases last with
        | true =>
          obtain ⟨fb, hfb⟩ := hfin w
          simp only [hfb, if_true]
          exact ⟨[Event.writeCalled (writerKey fmt sr)], Or.inr rfl, by simp, by simp⟩
        | false =>
          simp only [Bool.false_eq_true, if_false]
          exact ⟨[Event.writeCalled (writerKey fmt sr)], Or.inr rfl, by simp, by simp⟩
      · rw [if_neg hlen]
        cases last with
        | true =>
          obtain ⟨fb, hfb⟩ := hfin w
          simp only [hfb, if_true]
          exact ⟨[], Or.inl rfl, by simp, by simp⟩
        | false =>
          simp only [Bool.false_eq_true, if_false]
          exact ⟨[], Or.inl rfl, by simp, by simp⟩

/-! Concrete configurations and evaluation lemmas used by witnesses and
counterexamples. -/

/-- Configuration with 1 ms head/tail trim, 410 ms dynamic pad, empty
multiplier table. -/
def cfgA : Settings := ⟨1, 410, []⟩

/-- Configuration like `cfgA` but mapping the trailing character to
multiplier 2. -/
def cfgB : Settings := ⟨1, 410, [('.', 2)]⟩

/-- Configuration with a zero dynamic pad, so non-last trailing pads are 0. -/
def cfgC : Settings := ⟨1, 0, []⟩

theorem samplesToPadEnd_nonlast_eq (settings : Settings) (t : String) (D : ℤ)
    (h : truncToInt (settings.dynamic_gap_trim_padding_ms *
        ((AudioNormalizer.init settings).sample_rate : ℚ) *
        padMultiplier settings t / 1000) = D) :
    samplesToPadEnd settings (AudioNormalizer.init settings) t false
      = max (D - 1200) 0 := by
  simp only [samplesToPadEnd, Bool.not_false, if_true, h, init_samples_to_pad_start]

theorem samplesToPadEnd_last_eq (settings : Settings) (t : String) :
    samplesToPadEnd settings (AudioNormalizer.init settings) t true = 1200 := by
  simp only [samplesToPadEnd, Bool.not_true, Bool.false_eq_true, if_false,
    init_samples_to_pad_start]

theorem spe_cfgA_nonlast :
    samplesToPadEnd cfgA (AudioNormalizer.init cfgA) ("") false = 8640 := by
  rw [samplesToPadEnd_nonlast_eq cfgA ("") 9840
    (truncToInt_eq_of _ _ (by
      rw [show padMultiplier cfgA ("") = 1 from rfl]
      norm_num [cfgA, AudioNormalizer.init]))]
  omega

theorem spe_cfgC_nonlast :
    samplesToPadEnd cfgC (AudioNormalizer.init cfgC) ("") false = 0 := by
  rw [samplesToPadEnd_nonlast_eq cfgC ("") 0
    (truncToInt_eq_of _ _ (by
      rw [show padMultiplier cfgC ("") = 1 from rfl]
      norm_num [cfgC, AudioNormalizer.init]))]
  omega

theorem spe_cfgB_dot :
    samplesToPadEnd cfgB (AudioNormalizer.init cfgB) (".") false = 18480 := by
  rw [samplesToPadEnd_nonlast_eq cfgB (".") 19680
    (truncToInt_eq_of _ _ (by
      rw [show padMultiplier cfgB (".") = 2 from rfl]
      norm_num [cfgB, AudioNormalizer.init]))]
  omega

theorem spe_cfgB_a :
    samplesToPadEnd cfgB (AudioNormalizer.init cfgB) ("a") false = 8640 := by
  rw [samplesToPadEnd_nonlast_eq cfgB ("a") 9840
    (truncToInt_eq_of _ _ (by
      rw [show padMultiplier cfgB ("a") = 1 from rfl]
      norm_num [cfgB, AudioNormalizer.init]))]
  omega

/-! Claim theorems for the silence locator. -/

/-- C4 (amended): for a buffer with at least one sample whose signed value
exceeds the amplitude threshold, the locator returns exactly
`(max(first_loud - leading_pad, 0), min(last_loud + trailing_pad, len))`,
where `first_loud` is the least and `last_loud` the greatest index whose
sample VALUE (not magnitude) exceeds the threshold. -/
theorem claim_C4_locator_range (settings : Settings) (audio : List ℤ)
    (chunk_text : String) (speed : ℚ) (is_last_chunk : Bool) (i j : ℕ)
    (hi : i < audio.length) (hix : exceedsB (audio.getD i 0) = true)
    (himin : ∀ k, k < i → exceedsB (audio.getD k 0) = false)
    (hj : j < audio.length) (hjx : exceedsB (audio.getD j 0) = true)
    (hjmax : ∀ k, j < k → k < audio.length → exceedsB (audio.getD k 0) = false) :
    find_first_last_non_silent settings (AudioNormalizer.init settings) audio
      chunk_text speed is_last_chunk
      = (max ((i : ℤ) - (AudioNormalizer.init settings).samples_to_pad_start) 0,
         min ((j : ℤ) + ⌈((samplesToPadEnd settings (AudioNormalizer.init settings)
             chunk_text is_last_chunk : ℤ) : ℚ) / speed⌉) (audio.length : ℤ)) := by
  have hf : firstLoud audio = some i := firstLoud_of_minimal audio i hi hix himin
  have hl : lastLoud audio = some j := lastLoud_of_maximal audio j hj hjx hjmax
  simp only [find_first_last_non_silent, hf, hl]

/-- C4 witness: a concrete instantiation of the amended locator-range
theorem, with the hypotheses discharged at buffer `[200, 0]`. -/
theorem claim_C4_locator_range_witness :
    exceedsB ((200 : ℤ)) = true ∧
    find_first_last_non_silent cfgA (AudioNormalizer.init cfgA) [200, 0] ("") 1 false
      = (0, 2) := by
  constructor
  · decide
  · have h := claim_C4_locator_range cfgA [200, 0] ("") 1 false 0 0
      (by decide) (by decide) (fun k hk => absurd hk (Nat.not_lt_zero k))
      (by decide) (by decide)
      (fun k hk hk2 => by
        have hk2a : k < 2 := by simpa using hk2
        have hk1 : k = 1 := by omega
        subst hk1; decide)
    rw [h, spe_cfgA_nonlast, init_samples_to_pad_start]
    norm_num

/-- C4 counterexample: buffer `[300, 0, 0, -300]` (last chunk, speed 1200)
contains the sample `-300` whose magnitude exceeds the threshold, and under
the claimed magnitude semantics the kept range would end at the buffer end
(index 4); the code compares signed values, treats `-300` as silent, and
returns `(0, 1)`. -/
theorem claim_C4_cex :
    exceedsB ((Int.natAbs (-300) : ℤ)) = true ∧
    exceedsB ((-300 : ℤ)) = false ∧
    find_first_last_non_silent cfgA (AudioNormalizer.init cfgA) [300, 0, 0, -300]
      ("") 1200 true = (0, 1) ∧
    min ((3 : ℤ) + ⌈((samplesToPadEnd cfgA (AudioNormalizer.init cfgA) ("") true : ℤ) : ℚ)
      / 1200⌉) 4 = 4 ∧
    ((0 : ℤ), (1 : ℤ)) ≠ ((0 : ℤ), (4 : ℤ)) := by
  refine ⟨by decide, by decide, ?_, ?_, by decide⟩
  · simp only [find_first_last_non_silent,
      show firstLoud [300, 0, 0, -300] = some 0 from by decide,
      show lastLoud [300, 0, 0, -300] = some 0 from by decide,
      samplesToPadEnd_last_eq, init_samples_to_pad_start]
    norm_num
  · rw [samplesToPadEnd_last_eq]
    norm_num

/-- C3 (amended): the trailing pad added after `last_loud` is
`ceil(samples_to_pad_end / speed)` in BOTH branches: for a last chunk
`samples_to_pad_end` is the fixed leading-pad amount, for a non-last chunk
it is `max(int(dynamic-pad-ms * sample_rate * multiplier / 1000) - leading_pad, 0)`;
the division by `speed` (rounded up) applies to the last-chunk pad as well. -/
theorem claim_C3_trailing_pad (settings : Settings) (audio : List ℤ)
    (chunk_text : String) (speed : ℚ) (i j : ℕ)
    (hf : firstLoud audio = some i) (hl : lastLoud audio = some j) :
    (find_first_last_non_silent settings (AudioNormalizer.init settings) audio
        chunk_text speed true).2
      = min ((j : ℤ) + ⌈(((AudioNormalizer.init settings).samples_to_pad_start : ℤ) : ℚ)
          / speed⌉) (audio.length : ℤ)
    ∧ (find_first_last_non_silent settings (AudioNormalizer.init settings) audio
        chunk_text speed false).2
      = min ((j : ℤ) + ⌈((max (truncToInt (settings.dynamic_gap_trim_padding_ms * 24000 *
          padMultiplier settings chunk_text / 1000)
            - (AudioNormalizer.init settings).samples_to_pad_start) 0 : ℤ) : ℚ)
          / speed⌉) (audio.length : ℤ) := by
  constructor
  · simp only [find_first_last_non_silent, hf, hl, samplesToPadEnd, Bool.not_true,
      Bool.false_eq_true, if_false]
  · simp only [find_first_last_non_silent, hf, hl, samplesToPadEnd, Bool.not_false,
      if_true, init_sample_rate]
    norm_num

/-- C3 witness: a concrete instantiation of the amended trailing-pad theorem
at buffer `[200]`, speed 2 (last-chunk pad `ceil(1200 / 2) = 600`, clamped
to the buffer). -/
theorem claim_C3_trailing_pad_witness :
    firstLoud [200] = some 0 ∧ lastLoud [200] = some 0 ∧
    (find_first_last_non_silent cfgA (AudioNormalizer.init cfgA) [200] ("") 2 true).2 = 1 ∧
    (find_first_last_non_silent cfgA (AudioNormalizer.init cfgA) [200] ("") 2 false).2 = 1 := by
  have h := claim_C3_trailing_pad cfgA [200] ("") 2 0 0 (by decide) (by decide)
  refine ⟨by decide, by decide, ?_, ?_⟩
  · rw [h.1, init_samples_to_pad_start]
    norm_num
  · rw [h.2]
    rw [truncToInt_eq_of _ 9840 (by
      rw [show padMultiplier cfgA ("") = 1 from rfl]
      norm_num [cfgA])]
    rw [init_samples_to_pad_start,
        show (max ((9840 : ℤ) - 1200) 0) = 8640 from by omega]
    norm_num

/-- C3 counterexample: last chunk at speed 1200 over buffer `[200, 0, 0, 0]`.
The claim says the last-chunk trailing pad equals the fixed leading-pad
amount (1200 samples) independent of speed, predicting end index
`min(0 + 1200, 4) = 4`; the code divides by speed and returns end index
`min(0 + ceil(1200 / 1200), 4) = 1`. -/
theorem claim_C3_cex :
    find_first_last_non_silent cfgA (AudioNormalizer.init cfgA) [200, 0, 0, 0]
      ("") 1200 true = (0, 1)
    ∧ min ((0 : ℤ) + (AudioNormalizer.init cfgA).samples_to_pad_start) 4 = 4
    ∧ ((1 : ℤ) ≠ (4 : ℤ)) := by
  refine ⟨?_, ?_, by decide⟩
  · simp only [find_first_last_non_silent,
      show firstLoud [200, 0, 0, 0] = some 0 from by decide,
      show lastLoud [200, 0, 0, 0] = some 0 from by decide,
      samplesToPadEnd_last_eq, init_samples_to_pad_start]
    norm_num
  · rw [init_samples_to_pad_start]
    norm_num

/-- C5 (amended): with trailing-punctuation multiplier 2 versus default
multiplier 1 (non-last chunk), the trailing pads satisfy
`pad2 + samples_to_pad_start = 2 * (pad1 + samples_to_pad_start)` — the
pre-subtraction dynamic pad doubles — provided the dynamic pad sample count
is a whole number at least the leading-pad amount.  The pads themselves are
not in an exact 2:1 ratio because the leading-pad amount is subtracted
after the multiplier is applied. -/
theorem claim_C5_pad_doubling (settings : Settings) (t1 t2 : String) (D : ℤ)
    (h1 : padMultiplier settings t1 = 1) (h2 : padMultiplier settings t2 = 2)
    (hD : settings.dynamic_gap_trim_padding_ms * 24000 / 1000 = (D : ℚ))
    (hD2 : 1200 ≤ D) :
    samplesToPadEnd settings (AudioNormalizer.init settings) t2 false
        + (AudioNormalizer.init settings).samples_to_pad_start
      = 2 * (samplesToPadEnd settings (AudioNormalizer.init settings) t1 false
        + (AudioNormalizer.init settings).samples_to_pad_start) := by
  have e1 : truncToInt (settings.dynamic_gap_trim_padding_ms *
      ((AudioNormalizer.init settings).sample_rate : ℚ) *
      padMultiplier settings t1 / 1000) = D := by
    apply truncToInt_eq_of
    rw [h1, init_sample_rate, mul_one]
    push_cast
    exact hD
  have e2 : truncToInt (settings.dynamic_gap_trim_padding_ms *
      ((AudioNormalizer.init settings).sample_rate : ℚ) *
      padMultiplier settings t2 / 1000) = 2 * D := by
    apply truncToInt_eq_of
    rw [h2, init_sample_rate]
    push_cast
    rw [show settings.dynamic_gap_trim_padding_ms * 24000 * 2 / 1000
        = settings.dynamic_gap_trim_padding_ms * 24000 / 1000 * 2 from by ring, hD]
    ring
  rw [samplesToPadEnd_nonlast_eq settings t1 D e1,
      samplesToPadEnd_nonlast_eq settings t2 (2 * D) e2,
      init_samples_to_pad_start]
  omega

/-- C5 witness: the amended doubling law instantiated at `cfgB`
(multiplier table mapping the trailing character to 2, dynamic pad
9840 samples). -/
theorem claim_C5_pad_doubling_witness :
    padMultiplier cfgB ("a") = 1 ∧ padMultiplier cfgB (".") = 2 ∧
    samplesToPadEnd cfgB (AudioNormalizer.init cfgB) (".") false
        + (AudioNormalizer.init cfgB).samples_to_pad_start
      = 2 * (samplesToPadEnd cfgB (AudioNormalizer.init cfgB) ("a") false
        + (AudioNormalizer.init cfgB).samples_to_pad_start) := by
  refine ⟨rfl, rfl, ?_⟩
  exact claim_C5_pad_doubling cfgB ("a") (".") 9840 rfl rfl
    (by norm_num [cfgB]) (by norm_num)

/-- C5 counterexample: under `cfgB` the multiplier-2 trailing pad is
`max(19680 - 1200, 0) = 18480` while the multiplier-1 pad is
`max(9840 - 1200, 0) = 8640`: the claimed exact 2:1 ratio fails because the
leading-pad amount is subtracted after the multiplier is applied. -/
theorem claim_C5_cex :
    padMultiplier cfgB (".") = 2 ∧ padMultiplier cfgB ("a") = 1 ∧
    samplesToPadEnd cfgB (AudioNormalizer.init cfgB) (".") false = 18480 ∧
    samplesToPadEnd cfgB (AudioNormalizer.init cfgB) ("a") false = 8640 ∧
    (18480 : ℤ) ≠ 2 * 8640 :=
  ⟨rfl, rfl, spe_cfgB_dot, spe_cfgB_a, by decide⟩

/-- C6: for every buffer the locator result satisfies
`0 <= start <= end <= len`, and an all-silent buffer yields `(0, len)`. -/
theorem claim_C6_invariant (settings : Settings) (audio : List ℤ)
    (chunk_text : String) (speed : ℚ) (is_last_chunk : Bool) (hspeed : 0 < speed) :
    (0 ≤ (find_first_last_non_silent settings (AudioNormalizer.init settings) audio
        chunk_text speed is_last_chunk).1 ∧
     (find_first_last_non_silent settings (AudioNormalizer.init settings) audio
        chunk_text speed is_last_chunk).1
       ≤ (find_first_last_non_silent settings (AudioNormalizer.init settings) audio
        chunk_text speed is_last_chunk).2 ∧
     (find_first_last_non_silent settings (AudioNormalizer.init settings) audio
        chunk_text speed is_last_chunk).2 ≤ (audio.length : ℤ)) ∧
    ((∀ s ∈ audio, exceedsB s = false) →
      find_first_last_non_silent settings (AudioNormalizer.init settings) audio
        chunk_text speed is_last_chunk = (0, (audio.length : ℤ))) := by
  constructor
  · cases hf : firstLoud audio with
    | none =>
      simp only [find_first_last_non_silent, hf]
      cases lastLoud audio with
      | none => exact ⟨le_refl 0, Int.natCast_nonneg _, le_refl _⟩
      | some j => exact ⟨le_refl 0, Int.natCast_nonneg _, le_refl _⟩
    | some i =>
      cases hl : lastLoud audio with
      | none =>
        simp only [find_first_last_non_silent, hf, hl]
        exact ⟨le_refl 0, Int.natCast_nonneg _, le_refl _⟩
      | some j =>
        simp only [find_first_last_non_silent, hf, hl]
        obtain ⟨hiL, hix, himin⟩ := firstLoud_spec audio i hf
        obtain ⟨hjL, hjx⟩ := lastLoud_spec audio j hl
        have hij : i ≤ j := by
          by_contra hc
          push_neg at hc
          have h0 := himin j hc
          rw [h0] at hjx; cases hjx
        have hpad : (0 : ℚ) ≤ ((samplesToPadEnd settings (AudioNormalizer.init settings)
            chunk_text is_last_chunk : ℤ) : ℚ) := by
          exact_mod_cast samplesToPadEnd_nonneg settings chunk_text is_last_chunk
        have hc0 : 0 ≤ ⌈((samplesToPadEnd settings (AudioNormalizer.init settings)
            chunk_text is_last_chunk : ℤ) : ℚ) / speed⌉ :=
          Int.ceil_nonneg (div_nonneg hpad (le_of_lt hspeed))
        have hiZ : (i : ℤ) ≤ (j : ℤ) := by exact_mod_cast hij
        have hjZ : (j : ℤ) < (audio.length : ℤ) := by exact_mod_cast hjL
        have hp : (0 : ℤ) ≤ (AudioNormalizer.init settings).samples_to_pad_start := by
          rw [init_samples_to_pad_start]; norm_num
        refine ⟨le_max_right _ _, le_min (max_le ?_ ?_) (max_le ?_ ?_), min_le_right _ _⟩
        · have : (i : ℤ) - (AudioNormalizer.init settings).samples_to_pad_start ≤ (i : ℤ) :=
            sub_le_self _ hp
          have h2 : (i : ℤ) ≤ (j : ℤ) + ⌈((samplesToPadEnd settings
              (AudioNormalizer.init settings) chunk_text is_last_chunk : ℤ) : ℚ) / speed⌉ :=
            le_trans hiZ (le_add_of_nonneg_right hc0)
          linarith
        · exact add_nonneg (Int.natCast_nonneg j) hc0
        · have : (i : ℤ) - (AudioNormalizer.init settings).samples_to_pad_start ≤ (i : ℤ) :=
            sub_le_self _ hp
          have h2 : (i : ℤ) ≤ (audio.length : ℤ) := by
            exact_mod_cast le_of_lt hiL
          linarith
        · exact Int.natCast_nonneg _
  · intro hsil
    have hf : firstLoud audio = none := (firstLoud_eq_none audio).mpr hsil
    have hl : lastLoud audio = none := (lastLoud_eq_none audio).mpr hsil
    simp only [find_first_last_non_silent, hf, hl]

/-- C6 witness: the invariant and the all-silent case at buffer `[0, 0]`,
speed 1. -/
theorem claim_C6_invariant_witness :
    (0 : ℚ) < 1 ∧
    find_first_last_non_silent cfgA (AudioNormalizer.init cfgA) [0, 0] ("") 1 false
      = (0, 2) ∧
    (0 ≤ (find_first_last_non_silent cfgA (AudioNormalizer.init cfgA) [0, 0]
        ("") 1 false).1 ∧
     (find_first_last_non_silent cfgA (AudioNormalizer.init cfgA) [0, 0]
        ("") 1 false).2 ≤ (2 : ℤ)) := by
  have h := claim_C6_invariant cfgA [0, 0] ("") 1 false (by norm_num)
  have h2 := h.2 (by decide)
  exact ⟨by norm_num, h2, by rw [h2]; exact ⟨le_refl 0, by norm_num⟩⟩

/-- C7: after `trim_audio`, every word timestamp has `start_time` and
`end_time` equal to its pre-trim value minus `start_index / 24000`, where
`start_index` is the locator start on the head/tail-trimmed buffer; the
shift is applied for every input (also when `start_index` is zero) and no
additional clamping is performed, so timestamps may become negative. -/
theorem claim_C7_timestamps (settings : Settings) (audio_chunk : AudioChunk ℤ)
    (chunk_text : String) (speed : ℚ) (is_last_chunk : Bool)
    (normalizer : Option AudioNormalizer) :
    (trim_audio settings audio_chunk chunk_text speed is_last_chunk
        normalizer).word_timestamps
      = audio_chunk.word_timestamps.map (List.map (fun ts =>
          { ts with
            start_time := ts.start_time - ((trimStartIndex settings
              (normalizer.getD (AudioNormalizer.init settings)) audio_chunk.audio
              chunk_text speed is_last_chunk : ℤ) : ℚ) / 24000
            end_time := ts.end_time - ((trimStartIndex settings
              (normalizer.getD (AudioNormalizer.init settings)) audio_chunk.audio
              chunk_text speed is_last_chunk : ℤ) : ℚ) / 24000 })) := rfl

/-- C8: for every non-empty float buffer, `normalize` returns the buffer
obtained by scaling each sample by 32767, clamping to `[-32768, 32767]` and
truncating to an integer; the output has the same length as the input and
every output sample lies in the int16 range.  (The embedding is a pure
function, so determinism is immediate.) -/
theorem claim_C8_normalize (n : AudioNormalizer) (audio : List ℚ) (h : audio ≠ []) :
    n.normalize audio = Except.ok (audio.map (fun s =>
        truncToInt (min (max (s * 32767) (-32768)) 32767)))
    ∧ (audio.map normSample).length = audio.length
    ∧ ∀ s ∈ audio.map normSample, -32768 ≤ s ∧ s ≤ 32767 := by
  refine ⟨normalize_ok n audio h, List.length_map audio normSample, ?_⟩
  intro s hs
  obtain ⟨q, hq, rfl⟩ := List.mem_map.mp hs
  unfold normSample
  apply truncToInt_bounds
  · apply le_min
    · exact le_max_right _ _
    · norm_num
  · exact min_le_right _ _

/-- C8 witness: `normalize` on the one-sample buffer `[1/2]` yields
`[16383]` (scale to 16383.5, no clamping needed, truncate). -/
theorem claim_C8_normalize_witness :
    ([(1 : ℚ) / 2] ≠ ([] : List ℚ)) ∧
    (AudioNormalizer.init cfgA).normalize [(1 : ℚ) / 2] = Except.ok [16383] := by
  constructor
  · simp
  · have h := (claim_C8_normalize (AudioNormalizer.init cfgA) [(1 : ℚ) / 2] (by simp)).1
    rw [h]
    simp only [List.map]
    rw [show min (max ((1 : ℚ) / 2 * 32767) (-32768)) 32767 = 32767 / 2 from by norm_num]
    rw [show truncToInt ((32767 : ℚ) / 2) = 16383 from by
      unfold truncToInt
      rw [if_pos (by norm_num)]
      norm_num]

/-! Concrete collaborator behaviors and evaluation lemmas for the
orchestrator claims. -/

/-- Writer behavior whose write and finalize always succeed. -/
def behConstOk : WriterBehavior :=
  ⟨fun _ _ => Except.ok [7], fun _ => Except.ok [9]⟩

/-- Writer behavior whose write always raises. -/
def behFailWrite : WriterBehavior :=
  ⟨fun _ _ => Except.error ("boom"), fun _ => Except.ok []⟩

theorem normSample_one : normSample 1 = 32767 := by
  unfold normSample
  exact truncToInt_eq_of _ _ (by norm_num)

theorem samples_to_trim_cfgA : (AudioNormalizer.init cfgA).samples_to_trim = 24 := by
  show truncToInt (cfgA.gap_trim_ms * 24000 / 1000) = 24
  exact truncToInt_eq_of _ _ (by norm_num [cfgA])

theorem samples_to_trim_cfgC : (AudioNormalizer.init cfgC).samples_to_trim = 24 := by
  show truncToInt (cfgC.gap_trim_ms * 24000 / 1000) = 24
  exact truncToInt_eq_of _ _ (by norm_num [cfgC])

theorem find_cfgA_single :
    find_first_last_non_silent cfgA (AudioNormalizer.init cfgA) [32767] ("") 1 false
      = (0, 1) := by
  simp only [find_first_last_non_silent,
    show firstLoud [32767] = some 0 from by decide,
    show lastLoud [32767] = some 0 from by decide,
    spe_cfgA_nonlast, init_samples_to_pad_start]
  norm_num

theorem find_cfgC_single :
    find_first_last_non_silent cfgC (AudioNormalizer.init cfgC) [32767] ("") 1 false
      = (0, 0) := by
  simp only [find_first_last_non_silent,
    show firstLoud [32767] = some 0 from by decide,
    show lastLoud [32767] = some 0 from by decide,
    spe_cfgC_nonlast, init_samples_to_pad_start]
  norm_num

theorem convertTrimmed_cfgA_one :
    convertTrimmed cfgA ⟨[1], none⟩ ("") 1 false = [32767] := by
  unfold convertTrimmed
  simp only [trim_audio, Option.getD_some]
  rw [show (⟨[1], none⟩ : AudioChunk ℚ).audio.map normSample = [32767] from by
    simp [normSample_one]]
  rw [if_neg (by rw [samples_to_trim_cfgA]; norm_num)]
  rw [find_cfgA_single]
  decide

theorem convertTrimmed_cfgC_one :
    convertTrimmed cfgC ⟨[1], none⟩ ("") 1 false = [] := by
  unfold convertTrimmed
  simp only [trim_audio, Option.getD_some]
  rw [show (⟨[1], none⟩ : AudioChunk ℚ).audio.map normSample = [32767] from by
    simp [normSample_one]]
  rw [if_neg (by rw [samples_to_trim_cfgC]; norm_num)]
  rw [find_cfgC_single]
  decide

/-! Claim theorems for the conversion orchestrator. -/

/-- C9: a call with an output format outside the supported set fails
immediately with the unsupported-format error (wrapped by the handler into
the conversion-failure message), before normalization or trimming runs
(the result does not depend on the chunk contents), with the writer map
unchanged and no writer-lifecycle event. -/
theorem claim_C9_unsupported_format (settings : Settings) (beh : WriterBehavior)
    (writers : WriterMap) (audio_chunk : AudioChunk ℚ) (sample_rate : ℕ)
    (output_format : String) (speed : ℚ) (chunk_text : String)
    (is_first_chunk is_last_chunk : Bool) (normalizer : Option AudioNormalizer)
    (h : SUPPORTED_FORMATS.contains output_format = false) :
    convert_audio settings beh writers audio_chunk sample_rate output_format speed
        chunk_text is_first_chunk is_last_chunk normalizer
      = ⟨Except.error ("Failed to convert audio stream to " ++ output_format ++ ": "
          ++ ("Format " ++ output_format ++ " not supported")), writers, []⟩ := by
  simp only [convert_audio, h, Bool.not_false, if_true]

/-- C9 witness: requesting format `"midi"` fails with the wrapped
unsupported-format error, leaves the (empty) writer map unchanged, and
creates no writer. -/
theorem claim_C9_unsupported_format_witness :
    SUPPORTED_FORMATS.contains ("midi") = false ∧
    convert_audio cfgA behConstOk [] ⟨[1], none⟩ 24000 ("midi") 1 ("") true false none
      = ⟨Except.error ("Failed to convert audio stream to " ++ "midi" ++ ": "
          ++ ("Format " ++ "midi" ++ " not supported")), [], []⟩ :=
  ⟨rfl, claim_C9_unsupported_format cfgA behConstOk [] ⟨[1], none⟩ 24000 ("midi") 1
    ("") true false none rfl⟩

/-- C10: a non-last-chunk call whose buffer is non-empty but trims to the
empty buffer skips the write step, so the local `chunk_data` is never
bound; the final `return chunk_data if chunk_data else b""` raises, and the
call surfaces the wrapped conversion-failure error instead of returning a
pair with empty bytes. -/
theorem claim_C10_empty_trim_raises (settings : Settings) (beh : WriterBehavior)
    (writers : WriterMap) (audio_chunk : AudioChunk ℚ) (sample_rate : ℕ)
    (output_format : String) (speed : ℚ) (chunk_text : String) (is_first_chunk : Bool)
    (hfmt : SUPPORTED_FORMATS.contains output_format = true)
    (hne : audio_chunk.audio ≠ [])
    (hempty : convertTrimmed settings audio_chunk chunk_text speed false = []) :
    (convert_audio settings beh writers audio_chunk sample_rate output_format speed
        chunk_text is_first_chunk false none).result
      = Except.error ("Failed to convert audio stream to " ++ output_format
          ++ ": " ++ "local variable chunk_data referenced before assignment") := by
  unfold convertTrimmed at hempty
  simp only [convert_audio, hfmt, Bool.not_true, Bool.false_eq_true, if_false,
    Option.getD_none]
  rw [normalize_ok (AudioNormalizer.init settings) audio_chunk.audio hne]
  simp only
  cases hc : (is_first_chunk
      || (dictLookup writers (writerKey output_format sample_rate)).isNone) with
  | true =>
    simp only [hc, if_true, dictLookup_insert]
    rw [hempty]
    simp
  | false =>
    have hcc := hc
    rw [Bool.or_eq_false_iff] at hcc
    cases hwk : dictLookup writers (writerKey output_format sample_rate) with
    | none => rw [hwk] at hcc; simp at hcc
    | some w =>
      simp only [hc, Bool.false_eq_true, if_false, hwk]
      rw [hempty]
      simp

/-- C10 witness: under the zero-dynamic-pad configuration the one-sample
buffer `[1]` trims to the empty buffer on a non-last chunk, and the call
fails with the wrapped unbound-local error. -/
theorem claim_C10_empty_trim_raises_witness :
    SUPPORTED_FORMATS.contains ("wav") = true ∧
    ([(1 : ℚ)] ≠ ([] : List ℚ)) ∧
    convertTrimmed cfgC ⟨[1], none⟩ ("") 1 false = [] ∧
    (convert_audio cfgC behConstOk [] ⟨[1], none⟩ 24000 ("wav") 1 ("") true false
        none).result
      = Except.error ("Failed to convert audio stream to " ++ "wav"
          ++ ": " ++ "local variable chunk_data referenced before assignment") := by
  refine ⟨rfl, by simp, convertTrimmed_cfgC_one, ?_⟩
  exact claim_C10_empty_trim_raises cfgC behConstOk [] ⟨[1], none⟩ 24000 ("wav") 1
    ("") true rfl (by simp) convertTrimmed_cfgC_one

/-- C1 (amended): for a first-chunk call in which the writer's write
raises, the call fails with a single wrapped conversion-failure error
carrying the target format and the underlying cause, and the writer-key
entry is STILL PRESENT in the live-session writer map afterwards — the
error path performs no removal. -/
theorem claim_C1_write_failure (settings : Settings) (beh : WriterBehavior)
    (writers : WriterMap) (audio_chunk : AudioChunk ℚ) (sample_rate : ℕ)
    (output_format : String) (speed : ℚ) (chunk_text : String) (is_last_chunk : Bool)
    (c : String)
    (hfmt : SUPPORTED_FORMATS.contains output_format = true)
    (hne : audio_chunk.audio ≠ [])
    (hta : convertTrimmed settings audio_chunk chunk_text speed is_last_chunk ≠ [])
    (hwx : beh.write ⟨output_format, sample_rate⟩
        (convertTrimmed settings audio_chunk chunk_text speed is_last_chunk)
      = Except.error c) :
    (convert_audio settings beh writers audio_chunk sample_rate output_format speed
        chunk_text true is_last_chunk none).result
      = Except.error ("Failed to convert audio stream to " ++ output_format
          ++ ": " ++ c)
    ∧ dictLookup (convert_audio settings beh writers audio_chunk sample_rate
        output_format speed chunk_text true is_last_chunk none).writers
        (writerKey output_format sample_rate)
      = some ⟨output_format, sample_rate⟩ := by
  unfold convertTrimmed at hta hwx
  simp only [convert_audio, hfmt, Bool.not_true, Bool.false_eq_true, if_false,
    Option.getD_none]
  rw [normalize_ok (AudioNormalizer.init settings) audio_chunk.audio hne]
  simp only [Bool.true_or, if_true, dictLookup_insert]
  rw [if_pos (List.length_pos.mpr hta)]
  rw [hwx]
  exact ⟨by simp, by simp [dictLookup_insert]⟩

/-- C1 witness: the amended write-failure theorem instantiated with a
writer whose write raises `"boom"` on the first chunk `[1]`. -/
theorem claim_C1_write_failure_witness :
    convertTrimmed cfgA ⟨[1], none⟩ ("") 1 false ≠ [] ∧
    behFailWrite.write ⟨("wav"), 24000⟩ (convertTrimmed cfgA ⟨[1], none⟩ ("") 1 false)
      = Except.error ("boom") ∧
    (convert_audio cfgA behFailWrite [] ⟨[1], none⟩ 24000 ("wav") 1 ("") true false
        none).result
      = Except.error ("Failed to convert audio stream to " ++ "wav" ++ ": " ++ "boom") ∧
    dictLookup (convert_audio cfgA behFailWrite [] ⟨[1], none⟩ 24000 ("wav") 1 ("")
        true false none).writers (writerKey ("wav") 24000) = some ⟨("wav"), 24000⟩ := by
  have h := claim_C1_write_failure cfgA behFailWrite [] ⟨[1], none⟩ 24000 ("wav") 1
    ("") false ("boom") rfl (by simp) (by rw [convertTrimmed_cfgA_one]; simp) rfl
  exact ⟨by rw [convertTrimmed_cfgA_one]; simp, rfl, h.1, h.2⟩

/-- C1 counterexample: a first-chunk `"wav"` call whose writer's write
raises `"boom"`.  The call fails with the single wrapped error as claimed,
but the writer-key entry `"wav_24000"` is still present in the writer map
afterwards, refuting the claimed absence. -/
theorem claim_C1_cex :
    (convert_audio cfgA behFailWrite [] ⟨[1], none⟩ 24000 ("wav") 1 ("") true false
        none).result
      = Except.error ("Failed to convert audio stream to " ++ "wav" ++ ": " ++ "boom")
    ∧ dictLookup (convert_audio cfgA behFailWrite [] ⟨[1], none⟩ 24000 ("wav") 1 ("")
        true false none).writers ("wav_24000") ≠ none := by
  have ht := convertTrimmed_cfgA_one
  unfold convertTrimmed at ht
  simp only [convert_audio, show SUPPORTED_FORMATS.contains ("wav") = true from rfl,
    Bool.not_true, Bool.false_eq_true, if_false, Option.getD_none]
  rw [normalize_ok (AudioNormalizer.init cfgA) [1] (by simp)]
  simp only [Bool.true_or, if_true, dictLookup_insert]
  rw [if_pos (by rw [ht]; norm_num)]
  rw [show behFailWrite.write ⟨("wav"), 24000⟩ (trim_audio cfgA
      ⟨List.map normSample (⟨[1], none⟩ : AudioChunk ℚ).audio,
        (⟨[1], none⟩ : AudioChunk ℚ).word_timestamps⟩ ("") 1 false
      (some (AudioNormalizer.init cfgA))).audio = Except.error ("boom") from rfl]
  exact ⟨by simp, by simp [dictLookup_insert,
    show writerKey ("wav") 24000 = "wav_24000" from rfl]⟩

/-- C2: two calls under key `"wav_24000"` — `[first, not last]` then
`[not first, last]` with non-empty buffers and a writer whose write and
finalize succeed — construct exactly one writer, request finalize exactly
once (on the second call only), and leave the key absent from the live
writer map. -/
theorem claim_C2_writer_lifecycle (settings : Settings) (beh : WriterBehavior)
    (writers : WriterMap) (c1 c2 : AudioChunk ℚ) (s1 s2 : ℚ) (t1 t2 : String)
    (h1 : c1.audio ≠ []) (h2 : c2.audio ≠ [])
    (hw : ∀ w a, ∃ b, beh.write w a = Except.ok b)
    (hfin : ∀ w, ∃ b, beh.finalize w = Except.ok b) :
    ((convertTwice settings beh writers c1 c2 s1 s2 t1 t2).1.events
        ++ (convertTwice settings beh writers c1 c2 s1 s2 t1 t2).2.events).count
        (Event.writerCreated ("wav_24000")) = 1
    ∧ ((convertTwice settings beh writers c1 c2 s1 s2 t1 t2).1.events
        ++ (convertTwice settings beh writers c1 c2 s1 s2 t1 t2).2.events).count
        (Event.finalizeCalled ("wav_24000")) = 1
    ∧ (convertTwice settings beh writers c1 c2 s1 s2 t1 t2).1.events.count
        (Event.finalizeCalled ("wav_24000")) = 0
    ∧ dictLookup (convertTwice settings beh writers c1 c2 s1 s2 t1 t2).2.writers
        ("wav_24000") = none := by
  have hkey : writerKey ("wav") 24000 = "wav_24000" := rfl
  have hfmt : SUPPORTED_FORMATS.contains ("wav") = true := rfl
  obtain ⟨evW1, hev1, hevents1, hwriters1⟩ :=
    convert_step settings beh writers c1 24000 ("wav") s1 t1 true false hfmt h1 hw hfin
  simp only [Bool.true_or, if_true, Bool.false_eq_true, if_false, List.append_nil, hkey]
    at hevents1 hwriters1 hev1
  obtain ⟨evW2, hev2, hevents2, hwriters2⟩ :=
    convert_step settings beh (dictInsert writers ("wav_24000") ⟨("wav"), 24000⟩)
      c2 24000 ("wav") s2 t2 false true hfmt h2 hw hfin
  simp only [hkey, Bool.false_or, dictLookup_insert, Option.isNone_some,
    Bool.false_eq_true, if_false, if_true, List.nil_append] at hevents2 hwriters2 hev2
  simp only [convertTwice, hkey]
  rw [hwriters1]
  rw [hevents1, hevents2, hwriters2, dictLookup_erase]
  rcases hev1 with rfl | rfl <;> rcases hev2 with rfl | rfl <;>
    exact ⟨by decide, by decide, by decide, rfl⟩

/-- C2 witness: the lifecycle theorem instantiated with one-sample buffers
and an always-succeeding writer. -/
theorem claim_C2_writer_lifecycle_witness :
    ([(1 : ℚ)] ≠ ([] : List ℚ)) ∧
    ((convertTwice cfgA behConstOk [] ⟨[1], none⟩ ⟨[1], none⟩ 1 1 ("") ("")).1.events
        ++ (convertTwice cfgA behConstOk [] ⟨[1], none⟩ ⟨[1], none⟩ 1 1 ("")
          ("")).2.events).count (Event.writerCreated ("wav_24000")) = 1 ∧
    ((convertTwice cfgA behConstOk [] ⟨[1], none⟩ ⟨[1], none⟩ 1 1 ("") ("")).1.events
        ++ (convertTwice cfgA behConstOk [] ⟨[1], none⟩ ⟨[1], none⟩ 1 1 ("")
          ("")).2.events).count (Event.finalizeCalled ("wav_24000")) = 1 ∧
    (convertTwice cfgA behConstOk [] ⟨[1], none⟩ ⟨[1], none⟩ 1 1 ("")
        ("")).1.events.count (Event.finalizeCalled ("wav_24000")) = 0 ∧
    dictLookup (convertTwice cfgA behConstOk [] ⟨[1], none⟩ ⟨[1], none⟩ 1 1 ("")
        ("")).2.writers ("wav_24000") = none := by
  have h := claim_C2_writer_lifecycle cfgA behConstOk [] ⟨[1], none⟩ ⟨[1], none⟩ 1 1
    ("") ("") (by simp) (by simp) (fun w a => ⟨[7], rfl⟩) (fun w => ⟨[9], rfl⟩)
  exact ⟨by simp, h.1, h.2.1, h.2.2.1, h.2.2.2⟩

end KokoroAudio
